import Mathlib

/-!
Shallow embedding of the `unity-cache-server` repository (Rust), covering the
pieces the verified claims are about:

* the hex codec (`encode_hex` / `decode_hex` / `HexString::from_hex_string`,
  `src/lib.rs`),
* the artifact kind enum (`UnityFileType`, `src/lib.rs`),
* the connection handshake (`read_version`, `src/serve.rs`),
* the transaction model (`Transaction`, `TransactionFiles`,
  `src/handlers/mod.rs`),
* the three storage backends: `MemoryHandler` (`src/handlers/memory.rs`),
  `FileSystemHandler` (`src/handlers/fs.rs`) and `NopHandler`
  (`src/handlers/nop.rs`).

Modelling conventions:

* Rust byte values (`u8`) are `Nat`s; theorems carry the bound `b < 256`
  where it matters.  Strings on the wire and in filenames are byte lists
  (`List Nat` of ASCII / UTF-8 code units); `str::len` is list length.
* An async byte reader is embedded as the list of bytes it can still
  deliver; `reader.take(size)` followed by `io::copy` reads
  `min size length` bytes, exactly as the tokio combinators do on a reader
  that then reaches end of stream.
* `tokio::sync::Mutex` state is explicit state passing; every fallible
  operation returns its `Result` together with the updated state.
* The `HashMap` of the memory backend and the directory tree of the
  filesystem backend are modelled as total functions from key / path to
  `Option` of the stored bytes.
* The filesystem environment's response to the renames performed by
  `end_transaction` is an oracle `UnityFileType → Option IoErrorKind`
  (`none` = the rename of that slot succeeds, `some e` = it fails with the
  I/O error `e`), since those failures come from the operating system.
* Staging temp files live under `<temp>/<uuid-v4>`; a uuid-v4 string is 36
  bytes while every computed artifact filename is 69 bytes, so no temp file
  path ever coincides with an artifact path and `get` (which only opens
  computed artifact paths) can never observe staged data.  The embedding
  therefore keeps staged bytes inside the `TempFile` value and lets the
  disk map hold committed artifacts.
-/

namespace UnityCache

instance {ε α : Type} [DecidableEq ε] [DecidableEq α] : DecidableEq (Except ε α) :=
  fun x y =>
    match x, y with
    | .ok a, .ok b =>
      if h : a = b then isTrue (by rw [h]) else isFalse (fun hh => h (Except.ok.inj hh))
    | .error a, .error b =>
      if h : a = b then isTrue (by rw [h]) else isFalse (fun hh => h (Except.error.inj hh))
    | .ok _, .error _ => isFalse (fun hh => Except.noConfusion hh)
    | .error _, .ok _ => isFalse (fun hh => Except.noConfusion hh)

/-- `UnityFileType` from `src/lib.rs`: the three artifact kinds. -/
inductive UnityFileType where
  | Asset
  | Info
  | Resource
deriving DecidableEq, Repr

/-- `UnityFileType::to_u8` (`src/lib.rs`). -/
def UnityFileType.to_u8 : UnityFileType → Nat
  | .Asset => 0
  | .Info => 1
  | .Resource => 2

/-- `UnityFileType::try_from_u8` (`src/lib.rs`). -/
def UnityFileType.try_from_u8 (b : Nat) : Option UnityFileType :=
  if b = 0 then some .Asset
  else if b = 1 then some .Info
  else if b = 2 then some .Resource
  else none

/-- `UnityFileType::to_ext` (`src/lib.rs`), as UTF-8 bytes:
`"bin"`, `"info"`, `"resource"`. -/
def UnityFileType.to_ext : UnityFileType → List Nat
  | .Asset => [98, 105, 110]
  | .Info => [105, 110, 102, 111]
  | .Resource => [114, 101, 115, 111, 117, 114, 99, 101]

/-- `std::io::ErrorKind` values the sources construct or inspect. -/
inductive IoErrorKind where
  | NotFound
  | UnexpectedEof
  | PermissionDenied
  | Other
deriving DecidableEq, Repr

/-- `DecodeHexError` from `src/lib.rs`.  The `ParseIntError` payload of the
Rust variant (which `std` parse error occurred) is not tracked. -/
inductive DecodeHexError where
  | LengthNotMatched (string_len buf_len : Nat)
  | ParseIntError
deriving DecidableEq, Repr

/-- The crate-wide `Error` enum from `src/lib.rs` (payloads of the wrapped
foreign error types are reduced to what the sources construct). -/
inductive Error where
  | ReadVersionError
  | WrongVersion (v : Nat)
  | UnknownFileTypeByte (b : Nat)
  | UnknownFileTypeExt
  | UnknownTransactionCommand (b : Nat)
  | UnknownPushCommand (b : Nat)
  | UnknownCommand (b : Nat)
  | FileTooLarge (max_size size : Nat)
  | NotInTransaction
  | Utf8Error
  | ParseIntError
  | IoError (k : IoErrorKind)
  | DecodeHex (e : DecodeHexError)
  | HandlerError
  | UnknownError
deriving DecidableEq, Repr

-- region hex codec (`src/lib.rs`)

/-- Lowercase hex digit for a value `d < 16`, as an ASCII byte
(`0`-`9` then `a`-`f`), matching Rust's `{:02x}` formatting digits. -/
def hexDigitByte (d : Nat) : Nat :=
  if d < 10 then 48 + d else 87 + d

/-- One byte formatted with `{:02x}` (`write!(&mut s, "{:02x}", b)` in
`encode_hex`): exactly two lowercase hex digits for any `b < 256`. -/
def encodeByte (b : Nat) : List Nat :=
  [hexDigitByte (b / 16), hexDigitByte (b % 16)]

/-- `encode_hex` (`src/lib.rs`): each byte appended as two lowercase hex
digits. -/
def encode_hex : List Nat → List Nat
  | [] => []
  | b :: rest => encodeByte b ++ encode_hex rest

/-- Value of one ASCII byte as a base-16 digit, as `char::to_digit(16)`
inside `from_str_radix` accepts it: `0`-`9`, `a`-`f`, `A`-`F`. -/
def hexDigitVal (b : Nat) : Option Nat :=
  if 48 ≤ b ∧ b ≤ 57 then some (b - 48)
  else if 97 ≤ b ∧ b ≤ 102 then some (b - 87)
  else if 65 ≤ b ∧ b ≤ 70 then some (b - 55)
  else none

/-- Accumulating digit loop of `from_str_radix`: fails on the first byte
that is not a base-16 digit. -/
def hexFold (acc : Nat) : List Nat → Option Nat
  | [] => some acc
  | b :: rest =>
    match hexDigitVal b with
    | some d => hexFold (acc * 16 + d) rest
    | none => none

/-- `uN::from_str_radix(s, 16)` of the standard library on an unsigned type
with maximum value `maxVal`, at the byte level: optional `+`/`-` sign, then
a nonempty run of base-16 digits; per-step `checked` arithmetic makes the
positive path fail exactly when the value exceeds `maxVal`, and the
negative path fail unless the value is zero. -/
def from_str_radix16 (maxVal : Nat) (bs : List Nat) : Option Nat :=
  match bs with
  | [] => none
  | b :: rest =>
    if b = 43 then
      match rest with
      | [] => none
      | _ => (hexFold 0 rest).bind fun v => if v ≤ maxVal then some v else none
    else if b = 45 then
      match rest with
      | [] => none
      | _ => (hexFold 0 rest).bind fun v => if v = 0 then some 0 else none
    else
      (hexFold 0 bs).bind fun v => if v ≤ maxVal then some v else none

/-- The per-index loop of `decode_hex` (`src/lib.rs`): each consecutive
2-byte slice `&s[i*2..i*2+2]` parsed with `u8::from_str_radix(_, 16)`.
Called only after the length check, so the input length is even. -/
def decodePairs : List Nat → Option (List Nat)
  | [] => some []
  | a :: b :: rest =>
    (from_str_radix16 255 [a, b]).bind fun v =>
      (decodePairs rest).map fun r => v :: r
  | [_] => none

/-- `decode_hex` (`src/lib.rs`): decodes the byte string `s` into a buffer
of length `bufLen`; rejects with `LengthNotMatched` unless the string's
byte length is exactly twice the buffer length. -/
def decode_hex (s : List Nat) (bufLen : Nat) : Except DecodeHexError (List Nat) :=
  if bufLen * 2 ≠ s.length then
    .error (.LengthNotMatched s.length bufLen)
  else
    match decodePairs s with
    | some l => .ok l
    | none => .error .ParseIntError

/-- `HexString::<N>::from_hex_string` (`src/lib.rs`): decode into a fresh
`N`-byte buffer. -/
def from_hex_string (N : Nat) (s : List Nat) : Except DecodeHexError (List Nat) :=
  decode_hex s N

/-- `HexString::to_hex_string` (`src/lib.rs`). -/
def to_hex_string (bytes : List Nat) : List Nat :=
  encode_hex bytes

-- endregion

-- region handshake (`src/serve.rs`)

/-- Is a byte a UTF-8 continuation byte (`0x80..=0xBF`)? -/
def utf8ContByte (b : Nat) : Bool :=
  128 ≤ b && b ≤ 191

/-- `std::str::from_utf8` validity (RFC 3629 well-formedness: no overlong
encodings, no surrogates, no code point above `U+10FFFF`), used by
`read_version` before parsing the version text. -/
def utf8Valid : List Nat → Bool
  | [] => true
  | b :: rest =>
    if b ≤ 127 then utf8Valid rest
    else if 194 ≤ b && b ≤ 223 then
      match rest with
      | b2 :: r => utf8ContByte b2 && utf8Valid r
      | [] => false
    else if b = 224 then
      match rest with
      | b2 :: b3 :: r => (160 ≤ b2 && b2 ≤ 191) && utf8ContByte b3 && utf8Valid r
      | _ => false
    else if (225 ≤ b && b ≤ 236) || b = 238 || b = 239 then
      match rest with
      | b2 :: b3 :: r => utf8ContByte b2 && utf8ContByte b3 && utf8Valid r
      | _ => false
    else if b = 237 then
      match rest with
      | b2 :: b3 :: r => (128 ≤ b2 && b2 ≤ 159) && utf8ContByte b3 && utf8Valid r
      | _ => false
    else if b = 240 then
      match rest with
      | b2 :: b3 :: b4 :: r =>
        (144 ≤ b2 && b2 ≤ 191) && utf8ContByte b3 && utf8ContByte b4 && utf8Valid r
      | _ => false
    else if 241 ≤ b && b ≤ 243 then
      match rest with
      | b2 :: b3 :: b4 :: r =>
        utf8ContByte b2 && utf8ContByte b3 && utf8ContByte b4 && utf8Valid r
      | _ => false
    else if b = 244 then
      match rest with
      | b2 :: b3 :: b4 :: r =>
        (128 ≤ b2 && b2 ≤ 143) && utf8ContByte b3 && utf8ContByte b4 && utf8Valid r
      | _ => false
    else false

/-- The tail of `read_version` (`src/serve.rs`):
`u32::from_str_radix(std::str::from_utf8(&buf[0..n])?, 16)?`, with the two
`?` conversions into the crate `Error`. -/
def parseVersionBytes (bs : List Nat) : Except Error Nat :=
  if utf8Valid bs then
    match from_str_radix16 (2 ^ 32 - 1) bs with
    | some v => .ok v
    | none => .error .ParseIntError
  else .error .Utf8Error

/-- `read_version` (`src/serve.rs`).  The reader is embedded as the list of
byte chunks its successive successful `read` calls return; a read into a
buffer of `k` free bytes returns at most `k` bytes, hence the `take`s.  The
second component counts how many `read` calls were issued. -/
def read_version (chunks : List (List Nat)) : Except Error Nat × Nat :=
  let c1 := (chunks.headD []).take 8
  let n := c1.length
  if n = 0 then
    (.error .ReadVersionError, 1)
  else if n = 1 then
    let c2 := ((chunks.drop 1).headD []).take 7
    if c2.length = 0 then
      (.error .ReadVersionError, 2)
    else
      (parseVersionBytes (c1 ++ c2), 2)
  else
    (parseVersionBytes c1, 1)

-- endregion

-- region transaction model (`src/handlers/mod.rs`)

/-- `TransactionFiles<T>` (`src/handlers/mod.rs`): a 3-slot vector of
optional staged values, indexed by `UnityFileType::to_u8` (0 = asset,
1 = info, 2 = resource), here one named field per index. -/
structure TransactionFiles (T : Type) where
  asset : Option T
  info : Option T
  resource : Option T
deriving DecidableEq, Repr

/-- `TransactionFiles::new`: all three slots empty. -/
def TransactionFiles.new {T : Type} : TransactionFiles T :=
  ⟨none, none, none⟩

/-- `TransactionFiles::set`: overwrite the slot indexed by
`typ.to_u8()`. -/
def TransactionFiles.set {T : Type} (s : TransactionFiles T) (typ : UnityFileType) (v : T) :
    TransactionFiles T :=
  match typ with
  | .Asset => { s with asset := some v }
  | .Info => { s with info := some v }
  | .Resource => { s with resource := some v }

/-- `TransactionFiles::take_all`: the occupied slots in index order
(0, 1, 2), each paired with its `UnityFileType`. -/
def TransactionFiles.take_all {T : Type} (s : TransactionFiles T) :
    List (UnityFileType × T) :=
  (match s.asset with
   | some f => [(UnityFileType.Asset, f)]
   | none => []) ++
  (match s.info with
   | some f => [(UnityFileType.Info, f)]
   | none => []) ++
  (match s.resource with
   | some f => [(UnityFileType.Resource, f)]
   | none => [])

/-- `Transaction<T>` (`src/handlers/mod.rs`): the (identity, content-hash)
pair fixed at creation plus the staged slots. -/
structure Transaction (T : Type) where
  guid : List Nat
  hash : List Nat
  files : TransactionFiles T
deriving DecidableEq, Repr

/-- `Transaction::new`: empty slots. -/
def Transaction.new {T : Type} (guid hash : List Nat) : Transaction T :=
  ⟨guid, hash, TransactionFiles.new⟩

-- endregion

-- region memory backend (`src/handlers/memory.rs`)

/-- `CacheKey` (`src/handlers/memory.rs`): the (guid, hash, type) triple.
The `guid` and `hash` fields are the 16 raw bytes of `HexString<16>`. -/
structure CacheKey where
  guid : List Nat
  hash : List Nat
  ftype : UnityFileType
deriving DecidableEq, Repr

/-- The shared `HashMap<CacheKey, Bytes>` of the memory backend, as a total
function from key to optionally-stored bytes. -/
def Db : Type := CacheKey → Option (List Nat)

/-- `HashMap::insert`: pointwise update. -/
def dbInsert (db : Db) (k : CacheKey) (v : List Nat) : Db :=
  fun k2 => if k2 = k then some v else db k2

/-- `MemoryHandler` (`src/handlers/memory.rs`): max put size (0 = no
limit), the per-handle transaction slot, and the shared database. -/
structure MemoryHandler where
  max_file_size : Nat
  transaction : Option (Transaction (List Nat))
  database : Db

/-- `MemoryHandler::get`: look the key up in the database; a miss is
`Ok(None)`, a hit returns the byte length and a reader over the bytes. -/
def MemoryHandler.get (m : MemoryHandler) (t : UnityFileType) (guid hash : List Nat) :
    Except Error (Option (Nat × List Nat)) :=
  match m.database ⟨guid, hash, t⟩ with
  | none => .ok none
  | some v => .ok (some (v.length, v))

/-- `MemoryHandler::start_transaction`: unconditionally replace the
transaction slot with a fresh empty transaction. -/
def MemoryHandler.start_transaction (m : MemoryHandler) (guid hash : List Nat) :
    Except Error Unit × MemoryHandler :=
  (.ok (), { m with transaction := some (Transaction.new guid hash) })

/-- `MemoryHandler::end_transaction`: `take()` the transaction, then insert
every occupied slot into the database under
`(guid, hash, slot kind)`. -/
def MemoryHandler.end_transaction (m : MemoryHandler) :
    Except Error Unit × MemoryHandler :=
  match m.transaction with
  | none => (.ok (), { m with transaction := none })
  | some tr =>
    (.ok (),
     { m with
       transaction := none
       database :=
         tr.files.take_all.foldl
           (fun db p => dbInsert db ⟨tr.guid, tr.hash, p.1⟩ p.2) m.database })

/-- `MemoryHandler::cancel_transaction`: drop the transaction. -/
def MemoryHandler.cancel_transaction (m : MemoryHandler) :
    Except Error Unit × MemoryHandler :=
  (.ok (), { m with transaction := none })

/-- `MemoryHandler::put`: max-size check, then copy `min size available`
bytes from the reader into a buffer, fail with `UnexpectedEof` if fewer
than `size` arrived, and only then stage the buffer in the slot for `t`
(failing with `NotInTransaction` if no transaction is open).  Returns the
result, the updated handler, and how many bytes were consumed from the
reader. -/
def MemoryHandler.put (m : MemoryHandler) (t : UnityFileType) (size : Nat)
    (reader : List Nat) : Except Error Unit × MemoryHandler × Nat :=
  if m.max_file_size ≠ 0 ∧ size > m.max_file_size then
    (.error (.FileTooLarge m.max_file_size size), m, 0)
  else
    let buf := reader.take size
    if buf.length ≠ size then
      (.error (.IoError .UnexpectedEof), m, buf.length)
    else
      match m.transaction with
      | some tr =>
        (.ok (),
         { m with transaction := some { tr with files := tr.files.set t buf } },
         buf.length)
      | none => (.error .NotInTransaction, m, buf.length)

-- endregion

-- region filesystem backend (`src/handlers/fs.rs`)

/-- A filesystem path as its list of components (each a byte string);
`Path::join` appends one component. -/
abbrev FsPath : Type := List (List Nat)

/-- The directory tree of committed artifacts, as a total function from
path to optionally-stored file contents. -/
def Disk : Type := FsPath → Option (List Nat)

/-- `tokio::fs::rename` of a staged file onto a target path (with
`create_dir_all` for the parent): the target now holds the staged bytes,
replacing any prior file there. -/
def diskInsert (d : Disk) (p : FsPath) (v : List Nat) : Disk :=
  fun p2 => if p2 = p then some v else d p2

/-- `TempFile` (`src/handlers/fs.rs`): a staged upload.  Its unique
temp-directory path (a 36-byte uuid-v4 component, never equal to a 69-byte
artifact filename) is abstracted away; the staged bytes are kept. -/
structure TempFile where
  content : List Nat
deriving DecidableEq, Repr

/-- `FileSystemHandler` (`src/handlers/fs.rs`).  The temp directory path
only ever hosts abstracted staging files, so it is not carried. -/
structure FileSystemHandler where
  max_file_size : Nat
  transaction : Option (Transaction TempFile)
  base_path : FsPath

/-- `FileSystemHandler::calc_filename`:
`"{guid-hex}-{hash-hex}.{ext}"` (45 = `-`, 46 = `.`). -/
def calc_filename (t : UnityFileType) (guid hash : List Nat) : List Nat :=
  encode_hex guid ++ [45] ++ encode_hex hash ++ [46] ++ t.to_ext

/-- `FileSystemHandler::calc_filepath`: shard directory = first two bytes
of the filename (`filename.get(0..2)`), then the filename, both joined
onto the base path. -/
def calc_filepath (base : FsPath) (t : UnityFileType) (guid hash : List Nat) : FsPath :=
  let filename := calc_filename t guid hash
  base ++ [filename.take 2, filename]

/-- `FileSystemHandler::get`: open the computed artifact path;
`NotFound` maps to a cache miss, a hit returns the metadata length and a
reader (the file contents). -/
def FileSystemHandler.get (h : FileSystemHandler) (disk : Disk) (t : UnityFileType)
    (guid hash : List Nat) : Except Error (Option (Nat × List Nat)) :=
  match disk (calc_filepath h.base_path t guid hash) with
  | none => .ok none
  | some v => .ok (some (v.length, v))

/-- `FileSystemHandler::start_transaction`: unconditionally replace the
transaction slot with a fresh empty transaction (abandoned temp files are
deleted by the `TempFile` drop safety net). -/
def FileSystemHandler.start_transaction (h : FileSystemHandler) (guid hash : List Nat) :
    Except Error Unit × FileSystemHandler :=
  (.ok (), { h with transaction := some (Transaction.new guid hash) })

/-- `FileSystemHandler::cancel_transaction`: drop the transaction. -/
def FileSystemHandler.cancel_transaction (h : FileSystemHandler) :
    Except Error Unit × FileSystemHandler :=
  (.ok (), { h with transaction := none })

/-- The commit loop of `FileSystemHandler::end_transaction`: move each
occupied slot (in `take_all` order) to its artifact path; `?` propagates
the first failing rename, leaving the earlier renames applied and the
remaining slots untouched.  `env t` is the environment's answer to the
rename of slot `t`. -/
def commitSlots (base : FsPath) (guid hash : List Nat)
    (env : UnityFileType → Option IoErrorKind) :
    List (UnityFileType × TempFile) → Disk → Except Error Unit × Disk
  | [], disk => (.ok (), disk)
  | (t, f) :: rest, disk =>
    match env t with
    | some e => (.error (.IoError e), disk)
    | none =>
      commitSlots base guid hash env rest
        (diskInsert disk (calc_filepath base t guid hash) f.content)

/-- The cumulative effect on the disk of successfully renaming a list of
staged slots: each slot's bytes end up at its computed artifact path. -/
def applyCommit (base : FsPath) (guid hash : List Nat)
    (slots : List (UnityFileType × TempFile)) (disk : Disk) : Disk :=
  slots.foldl (fun d p => diskInsert d (calc_filepath base p.1 guid hash) p.2.content) disk

/-- `FileSystemHandler::end_transaction`: `take()` the transaction first
(the handler is Idle afterwards whatever happens), then run the commit
loop over the occupied slots. -/
def FileSystemHandler.end_transaction (h : FileSystemHandler) (disk : Disk)
    (env : UnityFileType → Option IoErrorKind) :
    Except Error Unit × FileSystemHandler × Disk :=
  match h.transaction with
  | none => (.ok (), { h with transaction := none }, disk)
  | some tr =>
    let r := commitSlots h.base_path tr.guid tr.hash env tr.files.take_all disk
    (r.1, { h with transaction := none }, r.2)

/-- `FileSystemHandler::put`: max-size check (before the temp file is even
created), stream `min size available` bytes into a fresh temp file, fail
with `UnexpectedEof` if fewer than `size` arrived (the temp file is
dropped), then stage the temp file in the slot for `t` (failing with
`NotInTransaction` if no transaction is open).  The committed-artifact
disk is untouched throughout.  Returns the result, the updated handler,
and how many bytes were consumed from the reader. -/
def FileSystemHandler.put (h : FileSystemHandler) (t : UnityFileType) (size : Nat)
    (reader : List Nat) : Except Error Unit × FileSystemHandler × Nat :=
  if h.max_file_size ≠ 0 ∧ size > h.max_file_size then
    (.error (.FileTooLarge h.max_file_size size), h, 0)
  else
    let buf := reader.take size
    if buf.length ≠ size then
      (.error (.IoError .UnexpectedEof), h, buf.length)
    else
      match h.transaction with
      | some tr =>
        (.ok (),
         { h with transaction := some { tr with files := tr.files.set t ⟨buf⟩ } },
         buf.length)
      | none => (.error .NotInTransaction, h, buf.length)

-- endregion

-- region discard backend (`src/handlers/nop.rs`)

/-- `NopHandler::get`: always a cache miss. -/
def NopHandler.get (_t : UnityFileType) (_guid _hash : List Nat) :
    Except Error (Option (Nat × List Nat)) :=
  .ok none

/-- `NopHandler::put`: `io::copy(&mut reader.take(size), &mut io::sink())`
then `Ok(())` — the copied byte count is discarded without comparing it to
`size`.  Returns the result and how many bytes were consumed. -/
def NopHandler.put (_t : UnityFileType) (size : Nat) (reader : List Nat) :
    Except Error Unit × Nat :=
  (.ok (), (reader.take size).length)

-- endregion

-- region spec-side definition and concrete fixtures

/-- The persisted layout as the spec words it (sections 3 and 6):
`<base>/<first-two-hex-chars-of-identity>/<identity-hex>-<hash-hex>.<ext>`.
Stated independently of `calc_filepath` to be compared against it. -/
def spec_filepath (base : FsPath) (t : UnityFileType) (guid hash : List Nat) : FsPath :=
  base ++ [(encode_hex guid).take 2,
           encode_hex guid ++ [45] ++ encode_hex hash ++ [46] ++ t.to_ext]

/-- Concrete 16-byte identity used by witnesses. -/
def guidW : List Nat := List.replicate 15 0 ++ [1]

/-- Concrete 16-byte content-hash used by witnesses. -/
def hashW : List Nat := List.replicate 16 17

/-- Memory handler with no open transaction, empty database, no size
limit. -/
def memW : MemoryHandler := ⟨0, none, fun _ => none⟩

/-- Memory handler with no open transaction and a 1-byte size limit. -/
def memMax1 : MemoryHandler := ⟨1, none, fun _ => none⟩

/-- Filesystem handler with no open transaction and no size limit. -/
def fsW : FileSystemHandler := ⟨0, none, [[99]]⟩

/-- Filesystem handler with a 1-byte size limit. -/
def fsMax1 : FileSystemHandler := ⟨1, none, [[99]]⟩

/-- Empty disk. -/
def diskW : Disk := fun _ => none

/-- Rename oracle where every rename succeeds. -/
def envOk : UnityFileType → Option IoErrorKind := fun _ => none

/-- Rename oracle where the info slot's rename fails with
`PermissionDenied` and the others succeed. -/
def envInfoFails : UnityFileType → Option IoErrorKind
  | .Info => some .PermissionDenied
  | _ => none

/-- Filesystem handler holding an open transaction with staged asset and
info uploads. -/
def fsTwoSlots : FileSystemHandler :=
  ⟨0, some ⟨guidW, hashW, ⟨some ⟨[1, 2]⟩, some ⟨[3]⟩, none⟩⟩, [[99]]⟩

-- endregion

-- region codec lemmas and claim C10

set_option maxRecDepth 4000 in
/-- Parsing the two-digit `{:02x}` rendering of a byte gives the byte
back. -/
theorem from_str_radix16_encodeByte :
    ∀ b < 256, from_str_radix16 255 (encodeByte b) = some b := by
  decide

/-- `encode_hex` produces two bytes per input byte. -/
theorem encode_hex_length (l : List Nat) : (encode_hex l).length = 2 * l.length := by
  induction l with
  | nil => rfl
  | cons b rest ih =>
    simp [encode_hex, encodeByte, ih]
    omega

/-- The decode loop inverts `encode_hex` on byte lists. -/
theorem decodePairs_encode_hex (l : List Nat) (hb : ∀ b ∈ l, b < 256) :
    decodePairs (encode_hex l) = some l := by
  induction l with
  | nil => rfl
  | cons b rest ih =>
    have hb0 : b < 256 := hb b (List.mem_cons_self b rest)
    have hrest : ∀ x ∈ rest, x < 256 := fun x hx => hb x (List.mem_cons_of_mem b hx)
    have h1 : from_str_radix16 255 [hexDigitByte (b / 16), hexDigitByte (b % 16)] = some b :=
      from_str_radix16_encodeByte b hb0
    simp [encode_hex, encodeByte, decodePairs, h1, ih hrest]

/-- C10: decoding the hex encoding of an `N`-byte array yields exactly the
array (`HexString::from_hex_string(x.to_hex_string()) = Ok(x)`), and
`decode_hex` rejects any input whose byte length is not exactly twice the
buffer length. -/
theorem hex_roundtrip_and_length_check (l : List Nat) (hb : ∀ b ∈ l, b < 256)
    (s : List Nat) (n : Nat) (hn : s.length ≠ 2 * n) :
    from_hex_string l.length (to_hex_string l) = .ok l ∧
    decode_hex s n = .error (.LengthNotMatched s.length n) := by
  constructor
  · unfold from_hex_string to_hex_string decode_hex
    rw [if_neg (by rw [encode_hex_length]; omega)]
    rw [decodePairs_encode_hex l hb]
  · unfold decode_hex
    rw [if_pos (by omega)]

/-- Witness for C10 at `l = [0, 255, 171]`, `s = [48]`, `n = 3`. -/
theorem hex_roundtrip_and_length_check_witness :
    from_hex_string 3 (to_hex_string [0, 255, 171]) = .ok [0, 255, 171] ∧
    decode_hex [48] 3 = .error (.LengthNotMatched 1 3) :=
  hex_roundtrip_and_length_check [0, 255, 171] (by decide) [48] 3 (by decide)

-- endregion

-- region claim C5: filesystem path layout

/-- C5: the filesystem backend's derived path equals
`<base>/<first-two-hex-chars-of-identity>/<32-hex-identity>-<32-hex-hash>.<ext>`
(with the shard taken from the identity's hex form), the identity and hash
render as 32 hex characters each, and the extension is one of `bin`,
`info`, `resource`.  `calc_filepath` is a plain function of
`(base, kind, identity, hash)`, so the derivation is deterministic. -/
theorem calc_filepath_layout (base : FsPath) (t : UnityFileType) (guid hash : List Nat)
    (hg : guid.length = 16) (hh : hash.length = 16) :
    calc_filepath base t guid hash = spec_filepath base t guid hash ∧
    (encode_hex guid).length = 32 ∧ (encode_hex hash).length = 32 ∧
    (t.to_ext = [98, 105, 110] ∨ t.to_ext = [105, 110, 102, 111] ∨
     t.to_ext = [114, 101, 115, 111, 117, 114, 99, 101]) := by
  have hglen : (encode_hex guid).length = 32 := by rw [encode_hex_length, hg]
  have hhlen : (encode_hex hash).length = 32 := by rw [encode_hex_length, hh]
  refine ⟨?_, hglen, hhlen, ?_⟩
  · unfold calc_filepath spec_filepath calc_filename
    have htake : ((encode_hex guid ++ ([45] ++ (encode_hex hash ++ ([46] ++ t.to_ext)))).take 2)
        = (encode_hex guid).take 2 := by
      rw [List.take_append_of_le_length (by omega)]
    simp only [List.append_assoc] at htake ⊢
    rw [htake]
  · cases t <;> simp [UnityFileType.to_ext]

/-- Witness for C5 at a concrete base, kind, identity and hash. -/
theorem calc_filepath_layout_witness :
    calc_filepath [[99]] .Asset guidW hashW = spec_filepath [[99]] .Asset guidW hashW ∧
    (encode_hex guidW).length = 32 ∧ (encode_hex hashW).length = 32 ∧
    (UnityFileType.to_ext .Asset = [98, 105, 110] ∨
     UnityFileType.to_ext .Asset = [105, 110, 102, 111] ∨
     UnityFileType.to_ext .Asset = [114, 101, 115, 111, 117, 114, 99, 101]) :=
  calc_filepath_layout [[99]] .Asset guidW hashW (by decide) (by decide)

-- endregion

-- region claim C3: handshake reads

/-- The version-text parse step never produces `ReadVersionError`: its
failures are `Utf8Error` or `ParseIntError`. -/
theorem parseVersionBytes_ne_readVersionError (bs : List Nat) :
    parseVersionBytes bs ≠ .error .ReadVersionError := by
  unfold parseVersionBytes
  by_cases h : utf8Valid bs
  · rw [if_pos h]
    cases from_str_radix16 (2 ^ 32 - 1) bs <;> simp
  · rw [if_neg h]
    simp

/-- C3 counterexample: when the first read returns 2 bytes (more than
zero, fewer than the requested 8), `read_version` issues no second read —
it parses the 2 bytes and makes exactly one read call, not two. -/
theorem read_version_no_second_read_after_two_bytes :
    ((([[50, 53], [52]] : List (List Nat)).headD []).take 8).length = 2 ∧
    read_version [[50, 53], [52]] = (.ok 37, 1) ∧
    (read_version [[50, 53], [52]]).2 ≠ 2 := by
  decide

/-- C3 amended: `read_version` issues a second read exactly when the first
read returns exactly 1 byte, and fails with `ReadVersionError` exactly
when the first read returns zero bytes or the first read returns one byte
and the second returns zero bytes. -/
theorem read_version_second_read_iff (chunks : List (List Nat)) :
    ((read_version chunks).2 = 2 ↔ ((chunks.headD []).take 8).length = 1) ∧
    ((read_version chunks).1 = .error .ReadVersionError ↔
      (((chunks.headD []).take 8).length = 0 ∨
       (((chunks.headD []).take 8).length = 1 ∧
        (((chunks.drop 1).headD []).take 7).length = 0))) := by
  have main : ∀ c1 c2 : List Nat,
      (((if c1.length = 0 then ((Except.error Error.ReadVersionError : Except Error Nat), (1 : Nat))
         else if c1.length = 1 then
           (if c2.length = 0 then ((Except.error Error.ReadVersionError : Except Error Nat), (2 : Nat))
            else (parseVersionBytes (c1 ++ c2), 2))
         else (parseVersionBytes c1, 1)).2 = 2) ↔ c1.length = 1) ∧
      (((if c1.length = 0 then ((Except.error Error.ReadVersionError : Except Error Nat), (1 : Nat))
         else if c1.length = 1 then
           (if c2.length = 0 then ((Except.error Error.ReadVersionError : Except Error Nat), (2 : Nat))
            else (parseVersionBytes (c1 ++ c2), 2))
         else (parseVersionBytes c1, 1)).1 = .error .ReadVersionError) ↔
        (c1.length = 0 ∨ (c1.length = 1 ∧ c2.length = 0))) := by
    intro c1 c2
    by_cases h0 : c1.length = 0
    · simp [h0]
    · by_cases h1 : c1.length = 1
      · by_cases h2 : c2.length = 0
        · simp [h0, h1, h2]
        · simp [h0, h1, h2, parseVersionBytes_ne_readVersionError (c1 ++ c2)]
      · simp [h0, h1, parseVersionBytes_ne_readVersionError c1]
  exact main ((chunks.headD []).take 8) (((chunks.drop 1).headD []).take 7)

-- endregion

-- region claim C1: memory put/commit/get round trip

/-- C1: starting a transaction for `(guid, hash)`, putting a payload of
exactly the declared size under kind `t`, and committing makes an
immediately following `get` for `(t, guid, hash)` return a hit with
exactly `size` and exactly the payload bytes.  (For the put to be the
successful staging step the claim describes, the declared size must pass
the handler's max-size check.) -/
theorem mem_put_commit_get (m : MemoryHandler) (guid hash payload : List Nat)
    (t : UnityFileType) (size : Nat) (hlen : payload.length = size)
    (hmax : m.max_file_size = 0 ∨ size ≤ m.max_file_size) :
    (((m.start_transaction guid hash).2.put t size payload).1 = .ok ()) ∧
    ((((m.start_transaction guid hash).2.put t size payload).2.1.end_transaction).2.get
        t guid hash = .ok (some (size, payload))) := by
  have hcond : ¬(m.max_file_size ≠ 0 ∧ size > m.max_file_size) := by
    rintro ⟨a, b⟩
    rcases hmax with h | h
    · exact a h
    · omega
  have htake : payload.take size = payload := by
    rw [← hlen]
    exact List.take_length payload
  cases t <;>
    simp [MemoryHandler.start_transaction, MemoryHandler.put, hcond, htake, hlen,
      Transaction.new, TransactionFiles.new, TransactionFiles.set,
      MemoryHandler.end_transaction, TransactionFiles.take_all,
      MemoryHandler.get, dbInsert]

/-- Witness for C1: the spec's concrete scenario shape — identity
`00…01`, hash `11…11`, kind asset, size 2, payload `DE AD`. -/
theorem mem_put_commit_get_witness :
    (((memW.start_transaction guidW hashW).2.put .Asset 2 [222, 173]).1 = .ok ()) ∧
    ((((memW.start_transaction guidW hashW).2.put .Asset 2 [222, 173]).2.1.end_transaction).2.get
        .Asset guidW hashW = .ok (some (2, [222, 173]))) :=
  mem_put_commit_get memW guidW hashW [222, 173] .Asset 2 rfl (Or.inl rfl)

-- endregion

-- region claim C2: truncated streams

/-- C2 counterexample: the discard backend's `put` with declared size 2
over a stream that can deliver only 1 byte returns success after consuming
the single byte — it does not fail with an end-of-stream error. -/
theorem nop_put_truncated_ok :
    NopHandler.put .Asset 2 [7] = (.ok (), 1) ∧ (1 : Nat) < 2 := by
  constructor
  · rfl
  · decide

/-- C2 amended: for the filesystem and memory backends, `put` with a
declared size greater than the bytes the stream can deliver (and passing
the max-size check) fails with an `UnexpectedEof` I/O error after
consuming every available byte, leaving the handler — in particular the
transaction slot for that kind — unchanged; the discard backend's `put`
instead succeeds after consuming what was available (no exact-byte-count
enforcement). -/
theorem put_truncated_stream (m : MemoryHandler) (fh : FileSystemHandler)
    (t : UnityFileType) (size : Nat) (stream : List Nat)
    (hs : stream.length < size)
    (hm : m.max_file_size = 0 ∨ size ≤ m.max_file_size)
    (hf : fh.max_file_size = 0 ∨ size ≤ fh.max_file_size) :
    m.put t size stream = (.error (.IoError .UnexpectedEof), m, stream.length) ∧
    fh.put t size stream = (.error (.IoError .UnexpectedEof), fh, stream.length) ∧
    NopHandler.put t size stream = (.ok (), stream.length) := by
  have hmc : ¬(m.max_file_size ≠ 0 ∧ size > m.max_file_size) := by
    rintro ⟨a, b⟩
    rcases hm with h | h
    · exact a h
    · omega
  have hfc : ¬(fh.max_file_size ≠ 0 ∧ size > fh.max_file_size) := by
    rintro ⟨a, b⟩
    rcases hf with h | h
    · exact a h
    · omega
  have htl : (stream.take size).length = stream.length := by
    rw [List.length_take]
    omega
  refine ⟨?_, ?_, ?_⟩
  · simp [MemoryHandler.put, hmc, htl]
    omega
  · simp [FileSystemHandler.put, hfc, htl]
    omega
  · simp [NopHandler.put, htl]

/-- Witness for C2 (amended) at size 3 over a 1-byte stream. -/
theorem put_truncated_stream_witness :
    memW.put .Asset 3 [7] = (.error (.IoError .UnexpectedEof), memW, 1) ∧
    fsW.put .Asset 3 [7] = (.error (.IoError .UnexpectedEof), fsW, 1) ∧
    NopHandler.put .Asset 3 [7] = (.ok (), 1) :=
  put_truncated_stream memW fsW .Asset 3 [7] (by decide) (Or.inl rfl) (Or.inl rfl)

-- endregion

-- region claim C4: put outside a transaction

/-- C4 counterexample: with no open transaction but a 1-byte size limit,
`put` with declared size 2 fails with `FileTooLarge`, not
`NotInTransaction` — the size check runs first. -/
theorem mem_put_no_transaction_file_too_large :
    memMax1.transaction = none ∧
    (memMax1.put .Asset 2 [0, 0]).1 = .error (.FileTooLarge 1 2) ∧
    (memMax1.put .Asset 2 [0, 0]).1 ≠ .error .NotInTransaction := by
  refine ⟨rfl, rfl, ?_⟩
  decide

/-- C4 amended: with no open transaction, `put` never succeeds and leaves
the handler (hence every subsequent `get`) unchanged; it fails with
`NotInTransaction` precisely on the paths where the declared size passes
the max-size check and the stream delivers the declared byte count
(otherwise `FileTooLarge` or the end-of-stream error fires first). -/
theorem put_without_transaction (m : MemoryHandler) (fh : FileSystemHandler)
    (t : UnityFileType) (size : Nat) (stream : List Nat)
    (hm : m.transaction = none) (hf : fh.transaction = none) :
    (m.put t size stream).1 ≠ .ok () ∧
    (m.put t size stream).2.1 = m ∧
    (∀ t2 g2 h2, ((m.put t size stream).2.1.get t2 g2 h2) = m.get t2 g2 h2) ∧
    ((m.max_file_size = 0 ∨ size ≤ m.max_file_size) → size ≤ stream.length →
      (m.put t size stream).1 = .error .NotInTransaction) ∧
    (fh.put t size stream).1 ≠ .ok () ∧
    (fh.put t size stream).2.1 = fh ∧
    (∀ disk t2 g2 h2,
      ((fh.put t size stream).2.1.get disk t2 g2 h2) = fh.get disk t2 g2 h2) ∧
    ((fh.max_file_size = 0 ∨ size ≤ fh.max_file_size) → size ≤ stream.length →
      (fh.put t size stream).1 = .error .NotInTransaction) := by
  have hmem : ∀ r : Except Error Unit × MemoryHandler × Nat,
      m.put t size stream = r → r.1 ≠ .ok () ∧ r.2.1 = m := by
    intro r hr
    unfold MemoryHandler.put at hr
    by_cases hc : m.max_file_size ≠ 0 ∧ size > m.max_file_size
    · rw [if_pos hc] at hr
      subst hr
      exact ⟨by simp, rfl⟩
    · rw [if_neg hc] at hr
      by_cases hl : (stream.take size).length ≠ size
      · rw [if_pos hl] at hr
        subst hr
        exact ⟨by simp, rfl⟩
      · rw [if_neg hl, hm] at hr
        subst hr
        exact ⟨by simp, rfl⟩
  have hfs : ∀ r : Except Error Unit × FileSystemHandler × Nat,
      fh.put t size stream = r → r.1 ≠ .ok () ∧ r.2.1 = fh := by
    intro r hr
    unfold FileSystemHandler.put at hr
    by_cases hc : fh.max_file_size ≠ 0 ∧ size > fh.max_file_size
    · rw [if_pos hc] at hr
      subst hr
      exact ⟨by simp, rfl⟩
    · rw [if_neg hc] at hr
      by_cases hl : (stream.take size).length ≠ size
      · rw [if_pos hl] at hr
        subst hr
        exact ⟨by simp, rfl⟩
      · rw [if_neg hl, hf] at hr
        subst hr
        exact ⟨by simp, rfl⟩
  obtain ⟨hm1, hm2⟩ := hmem _ rfl
  obtain ⟨hf1, hf2⟩ := hfs _ rfl
  refine ⟨hm1, hm2, ?_, ?_, hf1, hf2, ?_, ?_⟩
  · intro t2 g2 h2
    rw [hm2]
  · intro hmax hlen
    have hc : ¬(m.max_file_size ≠ 0 ∧ size > m.max_file_size) := by
      rintro ⟨a, b⟩
      rcases hmax with h | h
      · exact a h
      · omega
    have hl : (stream.take size).length = size := by
      rw [List.length_take]
      omega
    simp [MemoryHandler.put, hc, hl, hm]
  · intro disk t2 g2 h2
    rw [hf2]
  · intro hmax hlen
    have hc : ¬(fh.max_file_size ≠ 0 ∧ size > fh.max_file_size) := by
      rintro ⟨a, b⟩
      rcases hmax with h | h
      · exact a h
      · omega
    have hl : (stream.take size).length = size := by
      rw [List.length_take]
      omega
    simp [FileSystemHandler.put, hc, hl, hf]

/-- Witness for C4 (amended): no-limit handlers with no open transaction,
put of 1 delivered byte. -/
theorem put_without_transaction_witness :
    (memW.put .Asset 1 [5]).1 = .error .NotInTransaction ∧
    (memW.put .Asset 1 [5]).2.1 = memW ∧
    (fsW.put .Asset 1 [5]).1 = .error .NotInTransaction ∧
    (fsW.put .Asset 1 [5]).2.1.get diskW .Info guidW hashW = fsW.get diskW .Info guidW hashW :=
  ⟨(put_without_transaction memW fsW .Asset 1 [5] rfl rfl).2.2.2.1 (Or.inl rfl) (by decide),
   (put_without_transaction memW fsW .Asset 1 [5] rfl rfl).2.1,
   (put_without_transaction memW fsW .Asset 1 [5] rfl rfl).2.2.2.2.2.2.2 (Or.inl rfl) (by decide),
   (put_without_transaction memW fsW .Asset 1 [5] rfl rfl).2.2.2.2.2.2.1 diskW .Info guidW hashW⟩

-- endregion

-- region claim C9: commit with no open transaction

/-- C9: with no open transaction, `end_transaction` returns `Ok` and
leaves the backing store (memory database / disk) and the whole handler
unchanged, so every subsequent `get` returns what it returned before. -/
theorem end_transaction_idle_noop (m : MemoryHandler) (fh : FileSystemHandler)
    (disk : Disk) (env : UnityFileType → Option IoErrorKind)
    (hm : m.transaction = none) (hf : fh.transaction = none) :
    m.end_transaction = (.ok (), m) ∧
    fh.end_transaction disk env = (.ok (), fh, disk) := by
  obtain ⟨mf, mt, md⟩ := m
  obtain ⟨ff, ft, fb⟩ := fh
  obtain rfl : mt = none := hm
  obtain rfl : ft = none := hf
  exact ⟨rfl, rfl⟩

/-- Witness for C9 on concrete idle handlers. -/
theorem end_transaction_idle_noop_witness :
    memW.end_transaction = (.ok (), memW) ∧
    fsW.end_transaction diskW envOk = (.ok (), fsW, diskW) :=
  end_transaction_idle_noop memW fsW diskW envOk rfl rfl

-- endregion

-- region claim C7: cancel / restart discards staged artifacts

/-- C7: after `cancel_transaction` (or after `start_transaction` for a new
pair), previously staged artifacts are unobservable via `get`, and a
subsequent `end_transaction` stores nothing: the memory database and the
disk coincide with their pre-transaction contents, so every `get` returns
the pre-transaction answer. -/
theorem cancel_or_restart_discards_staged (m : MemoryHandler) (fh : FileSystemHandler)
    (disk : Disk) (env : UnityFileType → Option IoErrorKind)
    (g2 h2 : List Nat) (t : UnityFileType) (g h : List Nat) :
    ((m.cancel_transaction).2.end_transaction).2.database = m.database ∧
    ((m.cancel_transaction).2.end_transaction).2.get t g h = m.get t g h ∧
    ((m.start_transaction g2 h2).2.end_transaction).2.database = m.database ∧
    ((m.start_transaction g2 h2).2.end_transaction).2.get t g h = m.get t g h ∧
    (fh.cancel_transaction).2.end_transaction disk env =
      (.ok (), { fh with transaction := none }, disk) ∧
    ((fh.start_transaction g2 h2).2.end_transaction disk env).2.2 = disk ∧
    ((fh.start_transaction g2 h2).2.end_transaction disk env).2.1.get disk t g h =
      fh.get disk t g h := by
  exact ⟨rfl, rfl, rfl, rfl, rfl, rfl, rfl⟩

-- endregion

-- region claim C8: declared size above the configured maximum

/-- C8: with a non-zero configured maximum and a declared size above it,
`put` fails with `FileTooLarge{max, actual}` having consumed zero stream
bytes and changed nothing, and a subsequent `get` for that key (absent
before) is still a miss. -/
theorem put_file_too_large (m : MemoryHandler) (fh : FileSystemHandler)
    (t : UnityFileType) (size : Nat) (stream : List Nat) (g h : List Nat) (disk : Disk)
    (hm0 : m.max_file_size ≠ 0) (hms : size > m.max_file_size)
    (hf0 : fh.max_file_size ≠ 0) (hfs2 : size > fh.max_file_size)
    (hmiss : m.database ⟨g, h, t⟩ = none)
    (hdmiss : disk (calc_filepath fh.base_path t g h) = none) :
    m.put t size stream = (.error (.FileTooLarge m.max_file_size size), m, 0) ∧
    fh.put t size stream = (.error (.FileTooLarge fh.max_file_size size), fh, 0) ∧
    (m.put t size stream).2.1.get t g h = .ok none ∧
    (fh.put t size stream).2.1.get disk t g h = .ok none := by
  have hmp : m.put t size stream = (.error (.FileTooLarge m.max_file_size size), m, 0) := by
    unfold MemoryHandler.put
    rw [if_pos ⟨hm0, hms⟩]
  have hfp : fh.put t size stream = (.error (.FileTooLarge fh.max_file_size size), fh, 0) := by
    unfold FileSystemHandler.put
    rw [if_pos ⟨hf0, hfs2⟩]
  refine ⟨hmp, hfp, ?_, ?_⟩
  · rw [hmp]
    simp [MemoryHandler.get, hmiss]
  · rw [hfp]
    simp [FileSystemHandler.get, hdmiss]

/-- Witness for C8: 1-byte limits, declared size 2, fresh key. -/
theorem put_file_too_large_witness :
    memMax1.put .Asset 2 [0, 0] = (.error (.FileTooLarge 1 2), memMax1, 0) ∧
    fsMax1.put .Asset 2 [0, 0] = (.error (.FileTooLarge 1 2), fsMax1, 0) ∧
    (memMax1.put .Asset 2 [0, 0]).2.1.get .Asset guidW hashW = .ok none ∧
    (fsMax1.put .Asset 2 [0, 0]).2.1.get diskW .Asset guidW hashW = .ok none :=
  put_file_too_large memMax1 fsMax1 .Asset 2 [0, 0] guidW hashW diskW
    (by decide) (by decide) (by decide) (by decide) rfl rfl

-- endregion

-- region claim C6: partial commit on rename failure

/-- Renaming a prefix of slots whose renames all succeed just applies them
to the disk and continues with the remaining slots. -/
theorem commitSlots_append_ok (base : FsPath) (guid hash : List Nat)
    (env : UnityFileType → Option IoErrorKind)
    (pre rest : List (UnityFileType × TempFile)) (disk : Disk)
    (hpre : ∀ p ∈ pre, env p.1 = none) :
    commitSlots base guid hash env (pre ++ rest) disk =
      commitSlots base guid hash env rest (applyCommit base guid hash pre disk) := by
  induction pre generalizing disk with
  | nil => rfl
  | cons p ps ih =>
    obtain ⟨t, f⟩ := p
    have h1 : env t = none := hpre (t, f) (List.mem_cons_self _ _)
    have h2 : ∀ q ∈ ps, env q.1 = none := fun q hq => hpre q (List.mem_cons_of_mem _ hq)
    simp only [List.cons_append, commitSlots, h1, applyCommit, List.foldl_cons]
    exact ih _ h2

/-- C6: committing a filesystem transaction when the rename of slot `t0`
fails (all slots before it succeeding) returns that I/O error, leaves the
earlier renames applied and the remaining slots unattempted, and leaves
the backend Idle (no open transaction). -/
theorem fs_commit_first_failure (h : FileSystemHandler) (disk : Disk)
    (env : UnityFileType → Option IoErrorKind) (tr : Transaction TempFile)
    (pre : List (UnityFileType × TempFile)) (t0 : UnityFileType) (f0 : TempFile)
    (post : List (UnityFileType × TempFile)) (e : IoErrorKind)
    (ht : h.transaction = some tr)
    (hsplit : tr.files.take_all = pre ++ (t0, f0) :: post)
    (hpre : ∀ p ∈ pre, env p.1 = none)
    (hfail : env t0 = some e) :
    h.end_transaction disk env =
      (.error (.IoError e), { h with transaction := none },
       applyCommit h.base_path tr.guid tr.hash pre disk) := by
  unfold FileSystemHandler.end_transaction
  rw [ht]
  simp only [hsplit, commitSlots_append_ok h.base_path tr.guid tr.hash env pre _ disk hpre,
    commitSlots, hfail]

/-- Witness for C6: a transaction with staged asset and info slots, the
info rename failing with `PermissionDenied`: the error surfaces, the asset
rename stays applied, and the handler is Idle. -/
theorem fs_commit_first_failure_witness :
    fsTwoSlots.end_transaction diskW envInfoFails =
      (.error (.IoError .PermissionDenied), { fsTwoSlots with transaction := none },
       applyCommit fsTwoSlots.base_path guidW hashW [(.Asset, ⟨[1, 2]⟩)] diskW) :=
  fs_commit_first_failure fsTwoSlots diskW envInfoFails
    ⟨guidW, hashW, ⟨some ⟨[1, 2]⟩, some ⟨[3]⟩, none⟩⟩
    [(.Asset, ⟨[1, 2]⟩)] .Info ⟨[3]⟩ [] .PermissionDenied rfl rfl (by decide) rfl

-- endregion

end UnityCache
